import Mathlib

/-!
# Restaurant menu backend: list-query builder and request guards

A shallow embedding of the request-handling code of the repository:

* `controllers/menuController.js`: `getMenuItems` (filter translation, sort,
  pagination), `getMenuItem`, `updateMenuItem`, `deleteMenuItem`;
* `middlewares/authMiddleware.js`: `protect`, `restrictTo`, `optionalAuth`;
* `middlewares/adminMiddleware.js`: `adminMiddleware`, `restrictTo`, `ownerOrAdmin`;
* `middlewares/sync.js`: `asyncHandler`;
* `routes/menuRoutes.js`: the middleware stacks of the menu routes.

JavaScript strings are lists of characters where the code inspects them,
numbers are the integer-valued doubles together with the infinities and `NaN`
(`JsNum`), objects are association lists in enumeration order, and the
libraries the code calls (the token verifier, the document store) are
parameters of the definitions.
-/

set_option linter.dupNamespace false
set_option maxRecDepth 100000
set_option exponentiation.threshold 2000

namespace Restaurant

/-! ## Values of `req.query` and of the store filter -/

/-- JSON-shaped values: what the query-string parser puts in `req.query`
(strings, arrays, nested objects) together with integer numbers, which the
example of the specification writes; a number stands for an integer whose
text is its plain digit string (magnitude below `10 ^ 21`). -/
inductive QVal where
  | str : String → QVal
  | num : Int → QVal
  | arr : List QVal → QVal
  | obj : List (String × QVal) → QVal
  deriving Repr, Inhabited

/-- An object literal: the association list of its own enumerable keys. -/
abbrev QObj := List (String × QVal)

mutual
/-- Decide equality of values. -/
def QVal.decEq : (a b : QVal) → Decidable (a = b)
  | .str a, .str b =>
    if h : a = b then isTrue (congrArg QVal.str h) else isFalse (fun e => h (QVal.str.inj e))
  | .num a, .num b =>
    if h : a = b then isTrue (congrArg QVal.num h) else isFalse (fun e => h (QVal.num.inj e))
  | .arr a, .arr b =>
    match QVal.decEqList a b with
    | isTrue h => isTrue (congrArg QVal.arr h)
    | isFalse h => isFalse (fun e => h (QVal.arr.inj e))
  | .obj a, .obj b =>
    match QVal.decEqObj a b with
    | isTrue h => isTrue (congrArg QVal.obj h)
    | isFalse h => isFalse (fun e => h (QVal.obj.inj e))
  | .str _, .num _ | .str _, .arr _ | .str _, .obj _
  | .num _, .str _ | .num _, .arr _ | .num _, .obj _
  | .arr _, .str _ | .arr _, .num _ | .arr _, .obj _
  | .obj _, .str _ | .obj _, .num _ | .obj _, .arr _ => isFalse (fun e => QVal.noConfusion e)
/-- Decide equality of arrays. -/
def QVal.decEqList : (a b : List QVal) → Decidable (a = b)
  | [], [] => isTrue rfl
  | x :: xs, y :: ys =>
    match QVal.decEq x y, QVal.decEqList xs ys with
    | isTrue h1, isTrue h2 => isTrue (h1 ▸ h2 ▸ rfl)
    | isFalse h1, _ => isFalse (fun e => h1 (List.cons.inj e).1)
    | _, isFalse h2 => isFalse (fun e => h2 (List.cons.inj e).2)
  | [], _ :: _ | _ :: _, [] => isFalse (fun e => List.noConfusion e)
/-- Decide equality of objects. -/
def QVal.decEqObj : (a b : List (String × QVal)) → Decidable (a = b)
  | [], [] => isTrue rfl
  | (k, x) :: xs, (l, y) :: ys =>
    if hk : k = l then
      match QVal.decEq x y, QVal.decEqObj xs ys with
      | isTrue h1, isTrue h2 => isTrue (hk ▸ h1 ▸ h2 ▸ rfl)
      | isFalse h1, _ => isFalse (fun e => h1 (Prod.mk.inj (List.cons.inj e).1).2)
      | _, isFalse h2 => isFalse (fun e => h2 (List.cons.inj e).2)
    else isFalse (fun e => hk (Prod.mk.inj (List.cons.inj e).1).1)
  | [], _ :: _ | _ :: _, [] => isFalse (fun e => List.noConfusion e)
end

instance : DecidableEq QVal := QVal.decEq

/-- Property read `o[k]`; `none` is `undefined`. -/
def QObj.get (o : QObj) (k : String) : Option QVal :=
  (o.find? (fun kv => kv.1 == k)).map (fun kv => kv.2)

/-- Modelled from the spec: the class `utils/ErrorResponse`, which is not
among the sources; section 7 describes it as an error object carrying a
message and an HTTP status code, and the guards construct it as
`new ErrorResponse(message, statusCode)`. It is the constructor
`errorResponse`; the other constructors are the built-in exceptions the code
can raise, which carry no status code. -/
inductive JsError where
  | errorResponse (message : String) (statusCode : Nat)
  | referenceError (message : String)
  | typeError (message : String)
  | syntaxError (message : String)
  deriving DecidableEq, Repr

deriving instance DecidableEq for Except

/-- The `statusCode` property of an error object (`undefined` is `none`). -/
def JsError.statusCode : JsError → Option Nat
  | .errorResponse _ code => some code
  | _ => none

/-- The `message` property of an error object. -/
def JsError.message : JsError → String
  | .errorResponse m _ => m
  | .referenceError m => m
  | .typeError m => m
  | .syntaxError m => m

/-! ## Number and string primitives -/

/-- Decimal digits of a natural number, most significant first. -/
def natDigits (n : Nat) : List Char := Nat.toDigits 10 n

/-- The text `String(n)` / `JSON.stringify(n)` of an integer. -/
def intText (n : Int) : List Char :=
  match n with
  | .ofNat k => natDigits k
  | .negSucc k => '-' :: natDigits (k + 1)

/-- Join character lists with a separator, as `Array.prototype.join`. -/
def joinWith (sep : List Char) : List (List Char) → List Char
  | [] => []
  | [x] => x
  | x :: y :: rest => x ++ sep ++ joinWith sep (y :: rest)

mutual
/-- The conversion `ToString(v)` applied by `parseInt` to its argument. -/
def toStringJs : QVal → List Char
  | .str s => s.toList
  | .num n => intText n
  | .arr xs => joinWith [','] (toStringJsList xs)
  | .obj _ => "[object Object]".toList
/-- Elementwise `ToString` of an array. -/
def toStringJsList : List QVal → List (List Char)
  | [] => []
  | x :: xs => toStringJs x :: toStringJsList xs
end

/-- JavaScript truthiness of a value read from `req.query`. -/
def truthy : Option QVal → Bool
  | none => false
  | some (.str s) => s.toList != []
  | some (.num n) => n != 0
  | some _ => true

/-- White space skipped by `parseInt` before the sign. -/
def isJsWhiteSpace (c : Char) : Bool :=
  let n := c.toNat
  n == 9 || n == 10 || n == 11 || n == 12 || n == 13 || n == 32 || n == 160 ||
  n == 0x1680 || (0x2000 ≤ n && n ≤ 0x200A) || n == 0x2028 || n == 0x2029 ||
  n == 0x202F || n == 0x205F || n == 0x3000 || n == 0xFEFF

/-- Value of a decimal digit character. -/
def digitVal (c : Char) : Option Nat :=
  if '0'.toNat ≤ c.toNat ∧ c.toNat ≤ '9'.toNat then some (c.toNat - '0'.toNat) else none

/-- Read the longest prefix of decimal digits, accumulating its value;
the Boolean tells whether at least one digit was read. -/
def readDigits : Nat → Bool → List Char → Nat × Bool
  | acc, seen, [] => (acc, seen)
  | acc, seen, c :: cs =>
    match digitVal c with
    | some d => readDigits (acc * 10 + d) true cs
    | none => (acc, seen)

/-! ## JavaScript numbers

Every number the handlers compute is an integer, an infinity or `NaN`:
`parseInt` yields one, and sums, differences and products of such values are
again of this kind. A double holds an integer exactly when the integer has at
most 53 significant bits. -/

/-- The number of low-order bits an integer loses when it is stored with 53
significant bits (the first argument bounds the search). -/
def excessBits : Nat → Nat → Nat
  | 0, _ => 0
  | fuel + 1, n => if n < 2 ^ 53 then 0 else excessBits fuel (n / 2) + 1

/-- The magnitude of the double nearest to the natural number `n`, ties to
the even significand; `none` when the result overflows to infinity. -/
def roundNat (n : Nat) : Option Nat :=
  if n < 2 ^ 53 then some n
  else if 2 ^ 1024 ≤ n then none
  else
    let shift := excessBits n n
    let q := n / 2 ^ shift
    let r := n % 2 ^ shift
    let q1 := if 2 ^ (shift - 1) < r ∨ (r = 2 ^ (shift - 1) ∧ q % 2 = 1) then q + 1 else q
    if 2 ^ 1024 ≤ q1 * 2 ^ shift then none else some (q1 * 2 ^ shift)

/-- A JavaScript number with an integer value, an infinity, or `NaN`. The
two zeros are not told apart: no operation of the handlers distinguishes them. -/
inductive JsNum where
  | nan
  | posInf
  | negInf
  | fin (n : Int)
  deriving DecidableEq, Repr

/-- The double nearest to an integer: the result of an arithmetic operation
whose exact value is that integer. -/
def JsNum.ofInt (n : Int) : JsNum :=
  match roundNat n.natAbs with
  | some m => .fin (if n < 0 then -(m : Int) else (m : Int))
  | none => if n < 0 then .negInf else .posInf

/-- The operator `+`. -/
def JsNum.add : JsNum → JsNum → JsNum
  | .fin a, .fin b => JsNum.ofInt (a + b)
  | .nan, _ => .nan
  | _, .nan => .nan
  | .posInf, .negInf => .nan
  | .negInf, .posInf => .nan
  | .posInf, _ => .posInf
  | .negInf, _ => .negInf
  | .fin _, .posInf => .posInf
  | .fin _, .negInf => .negInf

/-- The operator `-`. -/
def JsNum.sub : JsNum → JsNum → JsNum
  | .fin a, .fin b => JsNum.ofInt (a - b)
  | .nan, _ => .nan
  | _, .nan => .nan
  | .posInf, .posInf => .nan
  | .negInf, .negInf => .nan
  | .posInf, _ => .posInf
  | .negInf, _ => .negInf
  | .fin _, .posInf => .negInf
  | .fin _, .negInf => .posInf

/-- An infinity times a finite number: `NaN` for zero, else the infinity
with the product of the signs. -/
def JsNum.infTimes (positive : Bool) (a : Int) : JsNum :=
  if a = 0 then .nan
  else if decide (0 < a) == positive then .posInf
  else .negInf

/-- The operator `*`. -/
def JsNum.mul : JsNum → JsNum → JsNum
  | .fin a, .fin b => JsNum.ofInt (a * b)
  | .nan, _ => .nan
  | _, .nan => .nan
  | .posInf, .posInf => .posInf
  | .negInf, .negInf => .posInf
  | .posInf, .negInf => .negInf
  | .negInf, .posInf => .negInf
  | .posInf, .fin a => JsNum.infTimes true a
  | .negInf, .fin a => JsNum.infTimes false a
  | .fin a, .posInf => JsNum.infTimes true a
  | .fin a, .negInf => JsNum.infTimes false a

/-- The comparison `a < b` (`b > a`); false when an operand is `NaN`. -/
def JsNum.lt : JsNum → JsNum → Bool
  | .fin a, .fin b => decide (a < b)
  | .nan, _ => false
  | _, .nan => false
  | .negInf, .negInf => false
  | .negInf, _ => true
  | .posInf, _ => false
  | .fin _, .posInf => true
  | .fin _, .negInf => false

/-- Falsy numbers: `NaN` and zero. -/
def JsNum.falsy : JsNum → Bool
  | .nan => true
  | .fin n => decide (n = 0)
  | _ => false

/-- The number of list positions a window argument stands for in the store
double used for evaluation. -/
def JsNum.toNat : JsNum → Nat
  | .fin n => n.toNat
  | _ => 0

/-- `parseInt(text, 10)` on a character list: leading white space, an
optional sign, then the longest run of decimal digits, whose value is rounded
to a double; no digit gives `NaN`. The standard lets an implementation replace
the digits after the twentieth by zeros before it rounds; the exact value is
rounded here, which is the same for a text of at most twenty digits or with
zeros from the twenty-first digit on. -/
def parseIntChars (cs : List Char) : JsNum :=
  let s := cs.dropWhile isJsWhiteSpace
  let (neg, body) :=
    match s with
    | '-' :: r => (true, r)
    | '+' :: r => (false, r)
    | r => (false, r)
  match readDigits 0 false body with
  | (n, true) => JsNum.ofInt (if neg then -(n : Int) else (n : Int))
  | (_, false) => .nan

/-- `parseInt(v, 10)` for a value read from `req.query` (`none` is
`undefined`, whose text `"undefined"` has no digits). -/
def parseInt (v : Option QVal) : JsNum :=
  match v with
  | none => .nan
  | some x => parseIntChars (toStringJs x)

/-- The expression `parseInt(v, 10) || d`: `NaN` and `0` are falsy. -/
def parseIntOr (v : Option QVal) (d : JsNum) : JsNum :=
  if (parseInt v).falsy then d else parseInt v

/-! ## Pagination (`menuController.js`, lines 42-69) -/

/-- A page descriptor `{ page, limit }`. -/
structure PageRef where
  page : JsNum
  limit : JsNum
  deriving DecidableEq, Repr

/-- The `pagination` object of the list response. -/
structure Pagination where
  next : Option PageRef
  prev : Option PageRef
  deriving DecidableEq, Repr

/-- `startIndex = (page - 1) * limit`. -/
def startIndex (page limit : JsNum) : JsNum := (page.sub (.fin 1)).mul limit

/-- `endIndex = page * limit`. -/
def endIndex (page limit : JsNum) : JsNum := page.mul limit

/-- The pagination result built from `page`, `limit` and `total`. -/
def paginate (page limit total : JsNum) : Pagination :=
  { next := if (endIndex page limit).lt total then some ⟨page.add (.fin 1), limit⟩ else none
    prev :=
      if (JsNum.fin 0).lt (startIndex page limit) then some ⟨page.sub (.fin 1), limit⟩
      else none }

/-! ## `JSON.stringify` -/

/-- A lower-case hexadecimal digit. -/
def hexDigit (n : Nat) : Char := Nat.digitChar (n % 16)

/-- The escape of one character inside a JSON string literal
(`QuoteJSONString`): named escapes, `\u00XX` for the other control
characters, every other character as it is. -/
def escapeChar (c : Char) : List Char :=
  if c = '"' then ['\\', '"']
  else if c = '\\' then ['\\', '\\']
  else if c.toNat = 8 then ['\\', 'b']
  else if c.toNat = 9 then ['\\', 't']
  else if c.toNat = 10 then ['\\', 'n']
  else if c.toNat = 12 then ['\\', 'f']
  else if c.toNat = 13 then ['\\', 'r']
  else if c.toNat < 32 then ['\\', 'u', '0', '0', hexDigit (c.toNat / 16), hexDigit c.toNat]
  else [c]

/-- A quoted JSON string literal. -/
def quoteString (s : List Char) : List Char :=
  '"' :: (s.flatMap escapeChar ++ ['"'])

mutual
/-- `JSON.stringify(v)`. -/
def jsonStringify : QVal → List Char
  | .str s => quoteString s.toList
  | .num n => intText n
  | .arr xs => '[' :: (joinWith [','] (stringifyElements xs) ++ [']'])
  | .obj kvs => '{' :: (joinWith [','] (stringifyMembers kvs) ++ ['}'])
/-- The serialised elements of an array. -/
def stringifyElements : List QVal → List (List Char)
  | [] => []
  | x :: xs => jsonStringify x :: stringifyElements xs
/-- The serialised `"key":value` members of an object. -/
def stringifyMembers : List (String × QVal) → List (List Char)
  | [] => []
  | (k, v) :: kvs => (quoteString k.toList ++ ':' :: jsonStringify v) :: stringifyMembers kvs
end

/-! ## The operator substitution `replace(/\b(gt|gte|lt|lte|in)\b/g, m => '$' + m)` -/

/-- Word characters of the regular-expression class `\w`. -/
def isWordChar (c : Char) : Bool := c.isAlphanum || c == '_'

/-- Whether the character next to a position is a word character
(`none`: the position is at an end of the text). -/
def isWord : Option Char → Bool
  | none => false
  | some c => isWordChar c

/-- The assertion `\b` between two neighbouring characters. -/
def wordBoundary (before after : Option Char) : Bool := isWord before != isWord after

/-- The alternatives of the group, in the order the pattern lists them. -/
def operatorTokens : List (List Char) :=
  ["gt".toList, "gte".toList, "lt".toList, "lte".toList, "in".toList]

/-- Try the pattern at one position: `before` is the character in front of
it, `s` the text from it on. The result is the matched alternative: the first
one, in order, that is followed by a word boundary. -/
def matchOperator (before : Option Char) (s : List Char) : Option (List Char) :=
  if wordBoundary before s.head? then
    operatorTokens.find? fun t =>
      t.isPrefixOf s && wordBoundary t.getLast? (s.drop t.length).head?
  else none

/-- The global replacement, left to right. The first argument counts the
characters of the current match still to be copied; when it is zero the
pattern is tried at the position, and a match is emitted behind a `$`. -/
def replaceFrom : Nat → Option Char → List Char → List Char
  | _, _, [] => []
  | k + 1, _, c :: cs => c :: replaceFrom k (some c) cs
  | 0, before, c :: cs =>
    match matchOperator before (c :: cs) with
    | some t => '$' :: c :: replaceFrom (t.length - 1) (some c) cs
    | none => c :: replaceFrom 0 (some c) cs

/-- `queryStr.replace(/\b(gt|gte|lt|lte|in)\b/g, (match) => '$' + match)`. -/
def replaceOperators (s : List Char) : List Char := replaceFrom 0 none s

/-! ## `JSON.parse` -/

/-- White space allowed between JSON tokens. -/
def isJsonWs (c : Char) : Bool :=
  c.toNat == 32 || c.toNat == 9 || c.toNat == 10 || c.toNat == 13

/-- Value of a hexadecimal digit, either case. -/
def hexVal (c : Char) : Option Nat :=
  let n := c.toNat
  if 48 ≤ n ∧ n ≤ 57 then some (n - 48)
  else if 97 ≤ n ∧ n ≤ 102 then some (n - 87)
  else if 65 ≤ n ∧ n ≤ 70 then some (n - 55)
  else none

/-- The character denoted by a single-letter escape. -/
def unescape (c : Char) : Option Char :=
  if c = '"' then some '"'
  else if c = '\\' then some '\\'
  else if c = '/' then some '/'
  else if c = 'b' then some (Char.ofNat 8)
  else if c = 't' then some (Char.ofNat 9)
  else if c = 'n' then some (Char.ofNat 10)
  else if c = 'f' then some (Char.ofNat 12)
  else if c = 'r' then some (Char.ofNat 13)
  else none

/-- The code unit of `\uXXXX`; surrogate halves, which the serialiser never
writes for a well-formed string, are rejected. -/
def hex4 (a b c d : Char) : Option Char :=
  match hexVal a, hexVal b, hexVal c, hexVal d with
  | some x, some y, some z, some w =>
    let n := ((x * 16 + y) * 16 + z) * 16 + w
    if 0xD800 ≤ n ∧ n ≤ 0xDFFF then none else some (Char.ofNat n)
  | _, _, _, _ => none

/-- Read a string literal after its opening quote: the decoded characters
and the text behind the closing quote. -/
def parseStringBody : List Char → Option (List Char × List Char)
  | [] => none
  | c :: rest =>
    if c = '"' then some ([], rest)
    else if c = '\\' then
      match rest with
      | 'u' :: x :: y :: z :: w :: rest2 =>
        match hex4 x y z w, parseStringBody rest2 with
        | some ch, some (s, r) => some (ch :: s, r)
        | _, _ => none
      | e :: rest2 =>
        match unescape e, parseStringBody rest2 with
        | some ch, some (s, r) => some (ch :: s, r)
        | _, _ => none
      | [] => none
    else if c.toNat < 32 then none
    else
      match parseStringBody rest with
      | some (s, r) => some (c :: s, r)
      | none => none

/-- Read an integer literal (`-`? digits, no leading zero); a fraction or an
exponent, which the serialiser never writes for an integer, is rejected. -/
def parseNumber (cs : List Char) : Option (Int × List Char) :=
  let (neg, body) :=
    match cs with
    | '-' :: r => (true, r)
    | r => (false, r)
  let ds := body.takeWhile Char.isDigit
  let rest := body.dropWhile Char.isDigit
  if ds.isEmpty then none
  else if ds.head? == some '0' && ds.length > 1 then none
  else if rest.head? == some '.' || rest.head? == some 'e' || rest.head? == some 'E' then none
  else
    let n : Nat := (readDigits 0 false ds).1
    some (if neg then -(n : Int) else (n : Int), rest)

/-- Assignment `o[k] = v` while an object is built: a repeated key keeps
its place and takes the later value. -/
def QObj.set (o : QObj) (k : String) (v : QVal) : QObj :=
  if o.any (fun kv => kv.1 == k) then o.map (fun kv => if kv.1 == k then (k, v) else kv)
  else o ++ [(k, v)]

mutual
/-- Read one JSON value; the first argument bounds the nesting and the
number of members still to be read. -/
def parseValue : Nat → List Char → Option (QVal × List Char)
  | 0, _ => none
  | fuel + 1, cs =>
    match cs.dropWhile isJsonWs with
    | [] => none
    | c :: rest =>
      if c = '"' then
        match parseStringBody rest with
        | some (s, r) => some (QVal.str (String.mk s), r)
        | none => none
      else if c = '[' then
        match rest.dropWhile isJsonWs with
        | [] => none
        | d :: r =>
          if d = ']' then some (QVal.arr [], r)
          else
            match parseElements fuel (d :: r) with
            | some (xs, r2) => some (QVal.arr xs, r2)
            | none => none
      else if c = '{' then
        match rest.dropWhile isJsonWs with
        | [] => none
        | d :: r =>
          if d = '}' then some (QVal.obj [], r)
          else
            match parseMembers fuel [] (d :: r) with
            | some (kvs, r2) => some (QVal.obj kvs, r2)
            | none => none
      else
        match parseNumber (c :: rest) with
        | some (n, r) => some (QVal.num n, r)
        | none => none
/-- Read the elements of an array up to its closing bracket. -/
def parseElements : Nat → List Char → Option (List QVal × List Char)
  | 0, _ => none
  | fuel + 1, cs =>
    match parseValue fuel cs with
    | none => none
    | some (v, r) =>
      match r.dropWhile isJsonWs with
      | [] => none
      | d :: r2 =>
        if d = ',' then
          match parseElements fuel r2 with
          | some (vs, r3) => some (v :: vs, r3)
          | none => none
        else if d = ']' then some ([v], r2)
        else none
/-- Read the members of an object up to its closing brace, adding them to
the object built so far. -/
def parseMembers : Nat → QObj → List Char → Option (QObj × List Char)
  | 0, _, _ => none
  | fuel + 1, acc, cs =>
    match cs.dropWhile isJsonWs with
    | [] => none
    | q :: r =>
      if q = '"' then
        match parseStringBody r with
        | none => none
        | some (k, r1) =>
          match r1.dropWhile isJsonWs with
          | [] => none
          | col :: r2 =>
            if col = ':' then
              match parseValue fuel r2 with
              | none => none
              | some (v, r3) =>
                match r3.dropWhile isJsonWs with
                | [] => none
                | d :: r4 =>
                  if d = ',' then parseMembers fuel (acc.set (String.mk k) v) r4
                  else if d = '}' then some (acc.set (String.mk k) v, r4)
                  else none
            else none
      else none
end

/-- `JSON.parse(text)`; `none` is a thrown `SyntaxError`. Every recursive
call has consumed a character, so the length of the text bounds the depth. -/
def jsonParse (cs : List Char) : Option QVal :=
  match parseValue (cs.length + 1) cs with
  | some (v, r) => if (r.dropWhile isJsonWs).isEmpty then some v else none
  | none => none

/-! ## The list query of `getMenuItems` (`menuController.js`, lines 8-49) -/

/-- The control keys removed from the copy of `req.query`. -/
def removeFields : List String := ["select", "sort", "page", "limit"]

/-- The statement `delete o[k]`. -/
def QObj.delete (o : QObj) (k : String) : QObj := o.filter fun kv => kv.1 != k

/-- The copy `reqQuery` after `removeFields.forEach(param => delete reqQuery[param])`. -/
def reqQueryOf (query : QObj) : QObj := removeFields.foldl QObj.delete query

/-- The text `queryStr` handed to `JSON.parse`. -/
def queryStr (query : QObj) : List Char :=
  replaceOperators (jsonStringify (QVal.obj (reqQueryOf query)))

/-- The argument of `MenuItem.find`: `JSON.parse(queryStr)`. -/
def storeFilter (query : QObj) : Except JsError QVal :=
  match jsonParse (queryStr query) with
  | some f => .ok f
  | none => .error (.syntaxError "Unexpected token in JSON")

/-- `text.split(sep)` for a one-character separator. -/
def splitChar (sep : Char) : List Char → List (List Char)
  | [] => [[]]
  | c :: cs =>
    match splitChar sep cs with
    | [] => [[]]
    | w :: ws => if c = sep then [] :: w :: ws else (c :: w) :: ws

/-- The expression `v.split(',').join(' ')`; a value that is not a string has
no `split` method. -/
def splitJoin (v : Option QVal) : Except JsError String :=
  match v with
  | some (.str s) => .ok (String.mk (joinWith [' '] (splitChar ',' s.toList)))
  | _ => .error (.typeError "split is not a function")

/-- The argument of `query.select`, when `req.query.select` is truthy. -/
def selectFields (query : QObj) : Except JsError (Option String) :=
  if truthy (query.get "select") then (splitJoin (query.get "select")).map some
  else .ok none

/-- The argument of `query.sort`. -/
def sortKey (query : QObj) : Except JsError String :=
  if truthy (query.get "sort") then splitJoin (query.get "sort")
  else .ok "-createdAt"

/-- `const page = parseInt(req.query.page, 10) || 1`. -/
def pageOf (query : QObj) : JsNum := parseIntOr (query.get "page") (.fin 1)

/-- `const limit = parseInt(req.query.limit, 10) || 10`. -/
def limitOf (query : QObj) : JsNum := parseIntOr (query.get "limit") (.fin 10)

/-- The composed store query: filter, projection, sort key, and the window
`skip(startIndex).limit(limit)`. -/
structure QueryPlan where
  filter : QVal
  fields : Option String
  sortBy : String
  page : JsNum
  limit : JsNum
  skip : JsNum
  deriving DecidableEq, Repr

/-- Lines 8-49 of `getMenuItems`, in the order the statements run. -/
def buildQuery (query : QObj) : Except JsError QueryPlan :=
  match storeFilter query with
  | .error e => .error e
  | .ok filter =>
    match selectFields query with
    | .error e => .error e
    | .ok fields =>
      match sortKey query with
      | .error e => .error e
      | .ok sortBy =>
        .ok { filter := filter, fields := fields, sortBy := sortBy,
              page := pageOf query, limit := limitOf query,
              skip := startIndex (pageOf query) (limitOf query) }

/-! ## The document store -/

/-- A stored menu item (the fields the handlers and guards read). -/
structure MenuItem where
  id : String
  name : String
  category : String
  price : Int
  user : Option String
  deriving DecidableEq, Repr

/-- The behaviour of the store library the handlers rely on: when a filter
matches a document, how a sort key orders documents, what `skip`/`limit`
keep, what a projection returns, and the validation run by `create` and by
`findByIdAndUpdate`. -/
structure Driver where
  isMatch : QVal → MenuItem → Bool
  order : String → List MenuItem → List MenuItem
  window : JsNum → JsNum → List MenuItem → List MenuItem
  project : String → MenuItem → MenuItem
  create : QObj → List MenuItem → Except JsError MenuItem
  update : QObj → MenuItem → Except JsError MenuItem

/-- `MenuItem.countDocuments(filter)`; without an argument every document
is counted. -/
def Driver.countDocuments (d : Driver) (docs : List MenuItem) (filter : Option QVal) : Nat :=
  match filter with
  | none => docs.length
  | some f => (docs.filter (d.isMatch f)).length

/-- The result of awaiting the composed query. -/
def Driver.exec (d : Driver) (docs : List MenuItem) (plan : QueryPlan) : List MenuItem :=
  let found := docs.filter (d.isMatch plan.filter)
  let page := d.window plan.skip plan.limit (d.order plan.sortBy found)
  match plan.fields with
  | some f => page.map (d.project f)
  | none => page

/-- `MenuItem.findById(id)`. -/
def findById (docs : List MenuItem) (id : Option String) : Option MenuItem :=
  match id with
  | none => none
  | some i => docs.find? fun m => m.id == i

/-! ## Requests, responses and middleware -/

/-- The attached user record (`req.user`). -/
structure User where
  id : String
  role : String
  deriving DecidableEq, Repr

/-- The parts of an Express request the code reads or writes. -/
structure Request where
  authorization : Option String
  jwtCookie : Option String
  params : List (String × String)
  query : QObj
  body : QObj
  user : Option User
  deriving DecidableEq

/-- `req.params[name]`. -/
def Request.param (req : Request) (name : String) : Option String :=
  (req.params.find? (fun kv => kv.1 == name)).map (fun kv => kv.2)

/-- Calls into the libraries, in the order they are made. -/
inductive Event where
  | jwtVerify (token : String)
  | userFindById (id : String)
  | modelFindById (id : Option String)
  | menuItem (op : String) (arg : Option String)
  deriving DecidableEq, Repr

/-- The `data` member of a JSON response. -/
inductive Payload where
  | items (xs : List MenuItem)
  | item (x : MenuItem)
  | empty
  deriving DecidableEq, Repr

/-- What `res.status(code).json(body)` sends. -/
structure Response where
  status : Nat
  success : Bool
  count : Option Nat
  pagination : Option Pagination
  data : Payload
  deriving DecidableEq, Repr

/-- The state a middleware runs in: the request, `res.locals.user`, the
menu-item collection, and the library calls made so far. -/
structure Ctx where
  req : Request
  localsUser : Option User
  docs : List MenuItem
  log : List Event
  deriving DecidableEq

/-- Record a library call. -/
def Ctx.emit (ctx : Ctx) (e : Event) : Ctx := { ctx with log := ctx.log ++ [e] }

/-- How a middleware ends: `next()`, `next(err)`, an exception (a rejected
promise for an `async` function), or a response sent. -/
inductive Outcome where
  | next
  | nextErr (e : JsError)
  | threw (e : JsError)
  | sent (res : Response)
  deriving DecidableEq, Repr

/-- The state after a middleware and how it ended. -/
structure Step where
  ctx : Ctx
  outcome : Outcome
  deriving DecidableEq

/-- A middleware or route handler. -/
abbrev Middleware := Ctx → Step

/-- The expression `next(new ErrorResponse(message, code))`, evaluated in a
module whose top-level bindings are `scope`: when the identifier
`ErrorResponse` is not bound there, evaluating the argument raises a
`ReferenceError` and `next` is not called. -/
def nextErrorResponse (scope : List String) (message : String) (code : Nat) : Outcome :=
  if scope.contains "ErrorResponse" then .nextErr (.errorResponse message code)
  else .threw (.referenceError "ErrorResponse is not defined")

/-- `asyncHandler(fn)` of `middlewares/sync.js`:
`Promise.resolve(fn(req, res, next)).catch(next)`. -/
def asyncHandler (fn : Middleware) : Middleware := fun ctx =>
  match fn ctx with
  | ⟨c, .threw e⟩ => ⟨c, .nextErr e⟩
  | s => s

/-- The text a template literal gives a route parameter. -/
def paramText (v : Option String) : String :=
  match v with
  | some s => s
  | none => "undefined"

/-! ## `controllers/menuController.js` -/

namespace menuController

/-- The top-level bindings of the module (lines 1-2): `MenuItem` and
`asyncHandler`. -/
def scope : List String := ["MenuItem", "asyncHandler"]

/-- The message of the not-found error. -/
def notFoundMessage (id : Option String) : String :=
  "Menu item not found with id of " ++ paramText id

/-- The body of `getMenuItems` (lines 7-77). -/
def getMenuItemsBody (d : Driver) : Middleware := fun ctx =>
  match buildQuery ctx.req.query with
  | .error e => ⟨ctx, .threw e⟩
  | .ok plan =>
    let total := d.countDocuments ctx.docs none
    let menuItems := d.exec ctx.docs plan
    ⟨(ctx.emit (.menuItem "countDocuments" none)).emit (.menuItem "find" none),
     .sent { status := 200, success := true, count := some menuItems.length,
             pagination := some (paginate plan.page plan.limit (JsNum.ofInt total)),
             data := .items menuItems }⟩

/-- `exports.getMenuItems`. -/
def getMenuItems (d : Driver) : Middleware := asyncHandler (getMenuItemsBody d)

/-- The body of `getMenuItem` (lines 82-95). -/
def getMenuItemBody : Middleware := fun ctx =>
  let id := ctx.req.param "id"
  let ctx1 := ctx.emit (.menuItem "findById" id)
  match findById ctx.docs id with
  | none => ⟨ctx1, nextErrorResponse scope (notFoundMessage id) 404⟩
  | some menuItem =>
    ⟨ctx1, .sent { status := 200, success := true, count := none, pagination := none,
                   data := .item menuItem }⟩

/-- `exports.getMenuItem`. -/
def getMenuItem : Middleware := asyncHandler getMenuItemBody

/-- The body of `createMenuItem` (lines 100-107). -/
def createMenuItemBody (d : Driver) : Middleware := fun ctx =>
  let ctx1 := ctx.emit (.menuItem "create" none)
  match d.create ctx.req.body ctx.docs with
  | .error e => ⟨ctx1, .threw e⟩
  | .ok menuItem =>
    ⟨{ ctx1 with docs := ctx.docs ++ [menuItem] },
     .sent { status := 201, success := true, count := none, pagination := none,
             data := .item menuItem }⟩

/-- `exports.createMenuItem`. -/
def createMenuItem (d : Driver) : Middleware := asyncHandler (createMenuItemBody d)

/-- The body of `updateMenuItem` (lines 112-128). -/
def updateMenuItemBody (d : Driver) : Middleware := fun ctx =>
  let id := ctx.req.param "id"
  let ctx1 := ctx.emit (.menuItem "findByIdAndUpdate" id)
  match findById ctx.docs id with
  | none => ⟨ctx1, nextErrorResponse scope (notFoundMessage id) 404⟩
  | some old =>
    match d.update ctx.req.body old with
    | .error e => ⟨ctx1, .threw e⟩
    | .ok menuItem =>
      ⟨{ ctx1 with docs := ctx.docs.map fun m => if m.id == old.id then menuItem else m },
       .sent { status := 200, success := true, count := none, pagination := none,
               data := .item menuItem }⟩

/-- `exports.updateMenuItem`. -/
def updateMenuItem (d : Driver) : Middleware := asyncHandler (updateMenuItemBody d)

/-- The body of `deleteMenuItem` (lines 133-146). -/
def deleteMenuItemBody : Middleware := fun ctx =>
  let id := ctx.req.param "id"
  let ctx1 := ctx.emit (.menuItem "findByIdAndDelete" id)
  match findById ctx.docs id with
  | none => ⟨ctx1, nextErrorResponse scope (notFoundMessage id) 404⟩
  | some old =>
    ⟨{ ctx1 with docs := ctx.docs.filter fun m => m.id != old.id },
     .sent { status := 200, success := true, count := none, pagination := none,
             data := .empty }⟩

/-- `exports.deleteMenuItem`. -/
def deleteMenuItem : Middleware := asyncHandler deleteMenuItemBody

end menuController

/-! ## `middlewares/authMiddleware.js` -/

/-- The decoded payload of a session token. -/
structure TokenPayload where
  id : String
  iat : Nat
  deriving DecidableEq, Repr

/-- The identity provider: `jwt.verify(token, secret)` (`none` when it
throws), `User.findById`, and the user method `changedPasswordAfter`. -/
structure Identity where
  verify : String → Option TokenPayload
  findUser : String → Option User
  changedPasswordAfter : User → Nat → Bool

namespace authMiddleware

/-- The top-level bindings of the module (lines 1-3). -/
def scope : List String := ["jwt", "User", "ErrorResponse"]

/-- `authorization.startsWith('Bearer')`. -/
def startsWithBearer (h : String) : Bool := "Bearer".toList.isPrefixOf h.toList

/-- `authorization.split(' ')[1]`. -/
def bearerToken (h : String) : Option String :=
  ((splitChar ' ' h.toList).get? 1).map String.mk

/-- A cookie value that is truthy. -/
def truthyCookie (c : Option String) : Option String :=
  match c with
  | some t => if t.toList.isEmpty then none else some t
  | none => none

/-- The variable `token` after step 1 of `protect` (lines 7-19). -/
def extractToken (req : Request) : Option String :=
  match req.authorization with
  | some h => if startsWithBearer h then bearerToken h else truthyCookie req.jwtCookie
  | none => truthyCookie req.jwtCookie

/-- The token when `!token` is false (line 22). -/
def presentToken (req : Request) : Option String :=
  match extractToken req with
  | some t => if t.toList.isEmpty then none else some t
  | none => none

/-- `exports.protect` (lines 6-56). -/
def protect (idp : Identity) : Middleware := fun ctx =>
  match presentToken ctx.req with
  | none =>
    ⟨ctx, nextErrorResponse scope "Not authorized to access this route. No token provided." 401⟩
  | some token =>
    let ctx1 := ctx.emit (.jwtVerify token)
    match idp.verify token with
    | none =>
      ⟨ctx1, nextErrorResponse scope "Not authorized to access this route. Invalid token." 401⟩
    | some decoded =>
      let ctx2 := ctx1.emit (.userFindById decoded.id)
      match idp.findUser decoded.id with
      | none =>
        ⟨ctx2, nextErrorResponse scope "The user belonging to this token no longer exists." 401⟩
      | some currentUser =>
        if idp.changedPasswordAfter currentUser decoded.iat then
          ⟨ctx2, nextErrorResponse scope "User recently changed password. Please log in again." 401⟩
        else
          ⟨{ ctx2 with req := { ctx2.req with user := some currentUser },
                       localsUser := some currentUser }, .next⟩

/-- `exports.restrictTo(...roles)` (lines 59-71); reading `req.user.role`
with no user attached raises a `TypeError`. -/
def restrictTo (roles : List String) : Middleware := fun ctx =>
  match ctx.req.user with
  | none => ⟨ctx, .threw (.typeError "Cannot read properties of undefined (reading 'role')")⟩
  | some user =>
    if !roles.contains user.role then
      ⟨ctx, nextErrorResponse scope "You do not have permission to perform this action" 403⟩
    else ⟨ctx, .next⟩

/-- `exports.optionalAuth` (lines 74-89). -/
def optionalAuth (idp : Identity) : Middleware := fun ctx =>
  match truthyCookie ctx.req.jwtCookie with
  | none => ⟨ctx, .next⟩
  | some token =>
    let ctx1 := ctx.emit (.jwtVerify token)
    match idp.verify token with
    | none => ⟨ctx1, .next⟩
    | some decoded =>
      let ctx2 := ctx1.emit (.userFindById decoded.id)
      match idp.findUser decoded.id with
      | none => ⟨ctx2, .next⟩
      | some currentUser =>
        if !idp.changedPasswordAfter currentUser decoded.iat then
          ⟨{ ctx2 with req := { ctx2.req with user := some currentUser },
                       localsUser := some currentUser }, .next⟩
        else ⟨ctx2, .next⟩

end authMiddleware

/-! ## `middlewares/adminMiddleware.js` -/

/-- A document loaded by `ownerOrAdmin`: its owning-user field, as the text
`resource.user.toString()` (`none` when the field is absent). -/
structure Resource where
  user : Option String
  deriving DecidableEq, Repr

namespace adminMiddleware

/-- The top-level bindings of the module (line 1). -/
def scope : List String := ["ErrorResponse"]

/-- The function `adminMiddleware` (lines 7-18). -/
def adminMiddleware : Middleware := fun ctx =>
  match ctx.req.user with
  | none =>
    ⟨ctx, nextErrorResponse scope "Administrator privileges required to access this route" 403⟩
  | some user =>
    if user.role != "admin" then
      ⟨ctx, nextErrorResponse scope "Administrator privileges required to access this route" 403⟩
    else ⟨ctx, .next⟩

/-- The message of `restrictTo`, built with `roles.join(', ')`. -/
def rolesMessage (roles : List String) : String :=
  "You need one of these roles: " ++ ", ".intercalate roles ++ " to access this route"

/-- `restrictTo(...roles)` (lines 25-37). -/
def restrictTo (roles : List String) : Middleware := fun ctx =>
  match ctx.req.user with
  | none => ⟨ctx, nextErrorResponse scope (rolesMessage roles) 403⟩
  | some user =>
    if !roles.contains user.role then ⟨ctx, nextErrorResponse scope (rolesMessage roles) 403⟩
    else ⟨ctx, .next⟩

/-- The test `resource.user && resource.user.toString() !== req.user.id`. -/
def ownedByOther (resource : Resource) (user : User) : Bool :=
  match resource.user with
  | none => false
  | some owner => !owner.toList.isEmpty && owner != user.id

/-- `ownerOrAdmin(modelName, idParam)` (lines 44-70). `model` is
`findById` of the model that `require` loads for `modelName`; the `catch`
forwards the `TypeError` of reading `req.user.role` with no user attached. -/
def ownerOrAdmin (model : Option String → Option Resource) (idParam : String) : Middleware :=
  fun ctx =>
  match ctx.req.user with
  | none => ⟨ctx, .nextErr (.typeError "Cannot read properties of undefined (reading 'role')")⟩
  | some user =>
    if user.role == "admin" then ⟨ctx, .next⟩
    else
      let id := ctx.req.param idParam
      let ctx1 := ctx.emit (.modelFindById id)
      match model id with
      | none => ⟨ctx1, nextErrorResponse scope "Resource not found" 404⟩
      | some resource =>
        if ownedByOther resource user then
          ⟨ctx1, nextErrorResponse scope "Not authorized to access this resource" 403⟩
        else ⟨ctx1, .next⟩

end adminMiddleware

/-! ## `routes/menuRoutes.js` -/

/-- The routes the router registers. -/
inductive Route where
  | getRoot
  | postRoot
  | putId
  | deleteId
  deriving DecidableEq, Repr

/-- The middleware stack of each route, in registration order. -/
def router (idp : Identity) (d : Driver) : Route → List Middleware
  | .getRoot => [menuController.getMenuItems d]
  | .postRoot =>
    [authMiddleware.protect idp, adminMiddleware.adminMiddleware, menuController.createMenuItem d]
  | .putId =>
    [authMiddleware.protect idp, adminMiddleware.adminMiddleware, menuController.updateMenuItem d]
  | .deleteId =>
    [authMiddleware.protect idp, adminMiddleware.adminMiddleware, menuController.deleteMenuItem]

/-- Express runs a stack in order: `next()` passes to the following
middleware; `next(err)`, an exception or a sent response ends the stack (an
error goes to the error handler). -/
def runStack : List Middleware → Ctx → Step
  | [], ctx => ⟨ctx, .next⟩
  | m :: ms, ctx =>
    match m ctx with
    | ⟨ctx1, .next⟩ => runStack ms ctx1
    | s => s

/-- A request dispatched to a route. -/
def dispatch (idp : Identity) (d : Driver) (r : Route) (ctx : Ctx) : Step :=
  runStack (router idp d r) ctx

/-! ## Sample data used to evaluate the code -/

/-- The text field of a menu item a filter key names. -/
def fieldText (m : MenuItem) (k : String) : Option String :=
  if k == "name" then some m.name
  else if k == "category" then some m.category
  else none

/-- A store double: a filter is a conjunction of equalities on text
fields, documents keep their stored order, `skip`/`limit` keep a window of
the list, a projection keeps the document, and validation accepts nothing
on `create` and everything on update. -/
def memoryDriver : Driver where
  isMatch := fun f m =>
    match f with
    | .obj kvs => kvs.all fun kv =>
        match kv.2 with
        | .str v => fieldText m kv.1 == some v
        | _ => false
    | _ => false
  order := fun _ xs => xs
  window := fun skip limit xs => (xs.drop skip.toNat).take limit.toNat
  project := fun _ m => m
  create := fun _ _ => .error (.typeError "validation failed")
  update := fun _ m => .ok m

/-- A main course owned by user `u1`. -/
def mainCourse (n : Nat) : MenuItem :=
  { id := String.mk (natDigits n), name := "Dish", category := "main", price := 12,
    user := some "u1" }

/-- Eleven stored main courses. -/
def elevenMains : List MenuItem := (List.range 11).map mainCourse

/-- The query `limit=-1000...0`, a minus sign and a one followed by 309
zeros: a number below the least finite double. -/
def hugeNegativeLimit : QObj :=
  [("limit", .str (String.mk ('-' :: '1' :: List.replicate 309 '0')))]

/-- A request with no credentials, parameters, query or body. -/
def emptyRequest : Request :=
  { authorization := none, jwtCookie := none, params := [], query := [], body := [],
    user := none }

/-- The state of a request on a collection, before any middleware ran. -/
def freshCtx (req : Request) (docs : List MenuItem) : Ctx :=
  { req := req, localsUser := none, docs := docs, log := [] }

/-- A registered customer. -/
def alice : User := { id := "u1", role := "user" }

/-- An identity provider that accepts the token `good`, issued to `alice`
at time 100, and knows no password change. -/
def sampleIdentity : Identity where
  verify := fun t => if t == "good" then some { id := "u1", iat := 100 } else none
  findUser := fun i => if i == "u1" then some alice else none
  changedPasswordAfter := fun _ _ => false

/-! ## Pagination envelope -/

theorem roundNat_exact (n : Nat) (h : n < 2 ^ 53) : roundNat n = some n := by
  unfold roundNat
  rw [if_pos h]

/-- An integer of magnitude below `2 ^ 53` is a double. -/
theorem ofInt_exact (n : Int) (h : n.natAbs < 2 ^ 53) : JsNum.ofInt n = .fin n := by
  unfold JsNum.ofInt
  rw [roundNat_exact n.natAbs h]
  show JsNum.fin _ = JsNum.fin n
  congr 1
  by_cases hn : n < 0
  · rw [if_pos hn]
    omega
  · rw [if_neg hn]
    omega

/-- What `getMenuItems` sends: the pagination object is built from the
parsed `page` and `limit` and from the count of all documents. -/
theorem getMenuItems_outcome (d : Driver) (ctx : Ctx) :
    (menuController.getMenuItems d ctx).outcome =
      match buildQuery ctx.req.query with
      | .error e => .nextErr e
      | .ok plan =>
        .sent { status := 200, success := true
                count := some (d.exec ctx.docs plan).length
                pagination := some (paginate (pageOf ctx.req.query) (limitOf ctx.req.query)
                  (JsNum.ofInt (d.countDocuments ctx.docs none)))
                data := .items (d.exec ctx.docs plan) } := by
  unfold menuController.getMenuItems asyncHandler menuController.getMenuItemsBody
  cases hq : buildQuery ctx.req.query with
  | error e => rfl
  | ok plan =>
    have hp : plan.page = pageOf ctx.req.query ∧ plan.limit = limitOf ctx.req.query := by
      unfold buildQuery at hq
      split at hq
      · cases hq
      · split at hq
        · cases hq
        · split at hq
          · cases hq
          · cases hq
            exact ⟨rfl, rfl⟩
    simp only [hp.1, hp.2]

/-- `parseInt` rounds to a double: `page=9007199254740993` (`2^53 + 1`) is
used as `9007199254740992`, and the `prev` descriptor holds
`9007199254740991`. -/
theorem pageOf_rounds :
    pageOf [("page", .str "9007199254740993")] = .fin 9007199254740992 ∧
    (paginate (pageOf [("page", .str "9007199254740993")]) (.fin 10) (.fin 12)).prev =
      some ⟨.fin 9007199254740991, .fin 10⟩ := by
  decide

/-- C1, as stated, fails: a `limit` below the least finite double parses to
`-Infinity`; with the default page 1, `startIndex` is `0 * -Infinity`, that
is `NaN`, so `startIndex + limit < total` is false, and yet the pagination
object has a `next` descriptor, because `endIndex` is `-Infinity`. -/
theorem pagination_next_with_infinite_limit :
    limitOf hugeNegativeLimit = .negInf ∧
    pageOf hugeNegativeLimit = .fin 1 ∧
    startIndex (pageOf hugeNegativeLimit) (limitOf hugeNegativeLimit) = .nan ∧
    ((startIndex (pageOf hugeNegativeLimit) (limitOf hugeNegativeLimit)).add
        (limitOf hugeNegativeLimit)).lt (.fin 12) = false ∧
    (paginate (pageOf hugeNegativeLimit) (limitOf hugeNegativeLimit) (.fin 12)).next =
      some ⟨.fin 2, .negInf⟩ := by
  decide

/-- C1, amended: for integers `page` and `limit` such that `page - 1`,
`page + 1`, `(page - 1) * limit` and `page * limit` have magnitude below
`2 ^ 53`, and every `total`, `startIndex` and `startIndex + limit` are
computed exactly, the pagination object has a `next` descriptor exactly when
`startIndex + limit < total`, and then it is `{page + 1, limit}`; it has a
`prev` descriptor exactly when `startIndex > 0`, and then it is
`{page - 1, limit}`. -/
theorem pagination_next_prev (page limit : Int) (total : JsNum)
    (hPrev : (page - 1).natAbs < 2 ^ 53) (hNext : (page + 1).natAbs < 2 ^ 53)
    (hStart : ((page - 1) * limit).natAbs < 2 ^ 53)
    (hEnd : (page * limit).natAbs < 2 ^ 53) :
    startIndex (.fin page) (.fin limit) = .fin ((page - 1) * limit) ∧
    (startIndex (.fin page) (.fin limit)).add (.fin limit) = .fin ((page - 1) * limit + limit) ∧
    paginate (.fin page) (.fin limit) total =
      { next :=
          if ((startIndex (.fin page) (.fin limit)).add (.fin limit)).lt total then
            some ⟨.fin (page + 1), .fin limit⟩
          else none
        prev :=
          if 0 < (page - 1) * limit then some ⟨.fin (page - 1), .fin limit⟩ else none } := by
  have hsum : (page - 1) * limit + limit = page * limit := by ring
  have h1 : startIndex (.fin page) (.fin limit) = .fin ((page - 1) * limit) := by
    simp only [startIndex, JsNum.sub, JsNum.mul, ofInt_exact _ hPrev, ofInt_exact _ hStart]
  have h2 : (startIndex (.fin page) (.fin limit)).add (.fin limit) =
      .fin ((page - 1) * limit + limit) := by
    rw [h1]
    simp only [JsNum.add]
    exact ofInt_exact _ (by rw [hsum]; exact hEnd)
  have h3 : endIndex (.fin page) (.fin limit) = .fin ((page - 1) * limit + limit) := by
    simp only [endIndex, JsNum.mul, ofInt_exact _ hEnd, hsum]
  refine ⟨h1, h2, ?_⟩
  unfold paginate
  rw [h2, h3, h1]
  simp only [JsNum.add, JsNum.sub, ofInt_exact _ hPrev, ofInt_exact _ hNext, JsNum.lt,
    decide_eq_true_eq]

theorem pagination_next_prev_witness :
    paginate (.fin 1) (.fin 5) (.fin 12) = { next := some ⟨.fin 2, .fin 5⟩, prev := none } ∧
    paginate (.fin 3) (.fin 5) (.fin 12) = { next := none, prev := some ⟨.fin 2, .fin 5⟩ } :=
  ⟨(pagination_next_prev 1 5 (.fin 12) (by decide) (by decide) (by decide) (by decide)).2.2.trans
      (by decide),
   (pagination_next_prev 3 5 (.fin 12) (by decide) (by decide) (by decide) (by decide)).2.2.trans
      (by decide)⟩

/-! ## Filter translation -/

/-- The example of the specification: `price[gte]=10`, `price[lte]=50`,
`sort=-price`, `page=2`, `limit=5` give the filter
`{price: {$gte: 10, $lte: 50}}`, the sort key `-price` and the offset 5. -/
theorem buildQuery_example :
    buildQuery [("price", .obj [("gte", .num 10), ("lte", .num 50)]), ("sort", .str "-price"),
        ("page", .num 2), ("limit", .num 5)] =
      .ok { filter := .obj [("price", .obj [("$gte", .num 10), ("$lte", .num 50)])],
            fields := none, sortBy := "-price", page := .fin 2, limit := .fin 5,
            skip := .fin 5 } := by
  decide

theorem delete_get (o : QObj) (k j : String) :
    (QObj.delete o j).get k = if k = j then none else o.get k := by
  induction o with
  | nil => simp [QObj.delete, QObj.get]
  | cons kv rest ih =>
    unfold QObj.delete QObj.get at *
    by_cases h1 : kv.1 = j
    · by_cases h2 : k = j
      · simp_all [List.filter_cons]
      · have h3 : ¬ kv.1 = k := fun h => h2 (h ▸ h1)
        simp_all [List.filter_cons, List.find?_cons]
    · by_cases h2 : kv.1 = k
      · have h3 : ¬ k = j := fun h => h1 (h ▸ h2)
        simp_all [List.filter_cons, List.find?_cons]
      · simp_all [List.filter_cons, List.find?_cons]

/-- The control keys are not keys of the object that is serialised. -/
theorem reqQueryOf_get_control (query : QObj) (k : String) (hk : k ∈ removeFields) :
    (reqQueryOf query).get k = none := by
  simp only [reqQueryOf, removeFields, List.foldl_cons, List.foldl_nil, delete_get]
  simp only [removeFields, List.mem_cons, List.mem_singleton, List.not_mem_nil, or_false] at hk
  rcases hk with h | h | h | h <;> simp [h]

/-- C2: the substitution is applied to the whole serialised text, so a
value or a field name that contains one of the five words is rewritten too:
the bare filter `name=Chicken in sauce` becomes `{name: "Chicken $in sauce"}`
and `name[lt]=in` becomes `{name: {$lt: "$in"}}`. -/
theorem storeFilter_rewrites_value :
    storeFilter [("name", .str "Chicken in sauce")] =
      .ok (.obj [("name", .str "Chicken $in sauce")]) ∧
    storeFilter [("name", .obj [("lt", .str "in")])] =
      .ok (.obj [("name", .obj [("$lt", .str "$in")])]) := by
  decide

/-- C10: the operator-translation step changes more than recognised
operator keys: an element of the list given for `in` is rewritten
(`lime in syrup` becomes `lime $in syrup`), and so is an operator token
outside the five (`not-in` becomes `not-$in`). -/
theorem storeFilter_rewrites_list_and_token :
    storeFilter [("ingredients", .obj [("in", .arr [.str "salt", .str "lime in syrup"])])] =
      .ok (.obj [("ingredients", .obj [("$in", .arr [.str "salt", .str "lime $in syrup"])])]) ∧
    storeFilter [("price", .obj [("not-in", .str "5")])] =
      .ok (.obj [("price", .obj [("not-$in", .str "5")])]) := by
  decide

/-! ## Page and limit parameters -/

/-- C3: a negative `page` or `limit` is truthy and is used as parsed:
`page=-1` gives page `-1` and, with the default limit 10, the offset `-20`;
`limit=-5` gives limit `-5`. -/
theorem negative_page_is_used :
    pageOf [("page", .str "-1")] = .fin (-1) ∧
    limitOf [("limit", .str "-5")] = .fin (-5) ∧
    buildQuery [("page", .str "-1")] =
      .ok { filter := .obj [], fields := none, sortBy := "-createdAt",
            page := .fin (-1), limit := .fin 10, skip := .fin (-20) } := by
  decide

/-! ## The total of the pagination -/

/-- C4: `countDocuments()` is called without the filter. On eleven stored
main courses the filter `category=dessert` matches no item; the response has
count 0 and no data, and still a `next` descriptor `{2, 10}`, because the
total it compares against is 11. -/
theorem total_ignores_filter :
    elevenMains.filter (memoryDriver.isMatch (.obj [("category", .str "dessert")])) = [] ∧
    (menuController.getMenuItems memoryDriver
        (freshCtx { emptyRequest with query := [("category", .str "dessert")] }
          elevenMains)).outcome =
      .sent { status := 200, success := true, count := some 0,
              pagination := some { next := some ⟨.fin 2, .fin 10⟩, prev := none },
              data := .items [] } := by
  decide

/-! ## Authentication guard -/

theorem presentToken_none (req : Request)
    (hHeader : ∀ h, req.authorization = some h → authMiddleware.startsWithBearer h = false)
    (hCookie : req.jwtCookie = none) : authMiddleware.presentToken req = none := by
  unfold authMiddleware.presentToken authMiddleware.extractToken
  cases ha : req.authorization with
  | none => simp [hCookie, authMiddleware.truthyCookie]
  | some h => simp [hHeader h ha, hCookie, authMiddleware.truthyCookie]

/-- C5: for a request with no `Authorization` header starting with `Bearer`
and no `jwt` cookie, `protect` ends with `next(err)` where `err` has status
401, and leaves the state as it was: nothing is added to the log of library
calls (no token verification, no user lookup) and no user is attached. The
result does not depend on what follows `protect` in a stack, so on the routes
`POST /`, `PUT /:id` and `DELETE /:id` the admin check and the handler are
not run. -/
theorem protect_without_token (idp : Identity) (d : Driver) (ctx : Ctx)
    (hHeader : ∀ h, ctx.req.authorization = some h → authMiddleware.startsWithBearer h = false)
    (hCookie : ctx.req.jwtCookie = none) :
    authMiddleware.protect idp ctx =
      ⟨ctx, .nextErr (.errorResponse
        "Not authorized to access this route. No token provided." 401)⟩ ∧
    (∀ rest : List Middleware, runStack (authMiddleware.protect idp :: rest) ctx =
      ⟨ctx, .nextErr (.errorResponse
        "Not authorized to access this route. No token provided." 401)⟩) ∧
    (∀ r : Route, r ≠ .getRoot → dispatch idp d r ctx =
      ⟨ctx, .nextErr (.errorResponse
        "Not authorized to access this route. No token provided." 401)⟩) := by
  have hp : authMiddleware.protect idp ctx =
      ⟨ctx, .nextErr (.errorResponse
        "Not authorized to access this route. No token provided." 401)⟩ := by
    unfold authMiddleware.protect
    rw [presentToken_none ctx.req hHeader hCookie]
    rfl
  have hs : ∀ rest : List Middleware, runStack (authMiddleware.protect idp :: rest) ctx =
      ⟨ctx, .nextErr (.errorResponse
        "Not authorized to access this route. No token provided." 401)⟩ := by
    intro rest
    simp only [runStack, hp]
  refine ⟨hp, hs, ?_⟩
  intro r hr
  cases r with
  | getRoot => exact absurd rfl hr
  | postRoot => exact hs _
  | putId => exact hs _
  | deleteId => exact hs _

theorem protect_without_token_witness :
    (authMiddleware.protect sampleIdentity
        (freshCtx { emptyRequest with authorization := some "Basic dXNlcg==" } elevenMains) =
      ⟨freshCtx { emptyRequest with authorization := some "Basic dXNlcg==" } elevenMains,
        .nextErr (.errorResponse
          "Not authorized to access this route. No token provided." 401)⟩) ∧
    dispatch sampleIdentity memoryDriver .deleteId
        (freshCtx { emptyRequest with authorization := some "Basic dXNlcg==" } elevenMains) =
      ⟨freshCtx { emptyRequest with authorization := some "Basic dXNlcg==" } elevenMains,
        .nextErr (.errorResponse
          "Not authorized to access this route. No token provided." 401)⟩ :=
  have h := protect_without_token sampleIdentity memoryDriver
    (freshCtx { emptyRequest with authorization := some "Basic dXNlcg==" } elevenMains)
    (by intro h hh; cases hh; decide) rfl
  ⟨h.1, h.2.2 .deleteId (by decide)⟩

/-! ## Ownership guard -/

/-- C6, as stated, fails: a user who is not an admin is let through to a
resource that has no owning-user field, although that field does not equal
the user's id. -/
theorem ownerOrAdmin_allows_unowned :
    (adminMiddleware.ownerOrAdmin (fun _ => some { user := none }) "id"
        (freshCtx { emptyRequest with params := [("id", "m1")], user := some alice } [])).outcome =
      .next ∧
    alice.role ≠ "admin" ∧ ({ user := none } : Resource).user ≠ some alice.id := by
  decide

/-- C6, amended: with a user attached, `ownerOrAdmin` allows an admin
without loading the resource; otherwise it loads the resource named by the
route parameter and fails with 404 when there is none; otherwise it fails
with 403 exactly when the resource has a non-empty owning-user field that
differs from the user's id, and allows in every other case, a resource
without an owning-user field included. -/
theorem ownerOrAdmin_decision (model : Option String → Option Resource) (idParam : String)
    (ctx : Ctx) (user : User) (hUser : ctx.req.user = some user) :
    adminMiddleware.ownerOrAdmin model idParam ctx =
      if user.role = "admin" then ⟨ctx, .next⟩
      else
        match model (ctx.req.param idParam) with
        | none =>
          ⟨ctx.emit (.modelFindById (ctx.req.param idParam)),
            .nextErr (.errorResponse "Resource not found" 404)⟩
        | some resource =>
          match resource.user with
          | none => ⟨ctx.emit (.modelFindById (ctx.req.param idParam)), .next⟩
          | some owner =>
            if owner ≠ "" ∧ owner ≠ user.id then
              ⟨ctx.emit (.modelFindById (ctx.req.param idParam)),
                .nextErr (.errorResponse "Not authorized to access this resource" 403)⟩
            else ⟨ctx.emit (.modelFindById (ctx.req.param idParam)), .next⟩ := by
  unfold adminMiddleware.ownerOrAdmin
  simp only [hUser]
  by_cases hAdmin : user.role = "admin"
  · simp [hAdmin]
  · simp only [beq_iff_eq, hAdmin, if_false]
    cases hm : model (ctx.req.param idParam) with
    | none => rfl
    | some resource =>
      cases ho : resource.user with
      | none => simp [adminMiddleware.ownedByOther, ho]
      | some owner =>
        by_cases h1 : owner = ""
        · simp [adminMiddleware.ownedByOther, ho, h1]
        · by_cases h2 : owner = user.id
          · simp [adminMiddleware.ownedByOther, ho, h2]
          · have h3 : ¬ owner.data = [] := fun h => h1 (String.ext h)
            simp [adminMiddleware.ownedByOther, ho, h1, h2, h3, nextErrorResponse,
              adminMiddleware.scope]

theorem ownerOrAdmin_decision_witness :
    adminMiddleware.ownerOrAdmin (fun _ => some { user := some "u2" }) "id"
        (freshCtx { emptyRequest with params := [("id", "m1")], user := some alice } []) =
      ⟨(freshCtx { emptyRequest with params := [("id", "m1")], user := some alice } []).emit
          (.modelFindById (some "m1")),
        .nextErr (.errorResponse "Not authorized to access this resource" 403)⟩ :=
  (ownerOrAdmin_decision (fun _ => some { user := some "u2" }) "id"
    (freshCtx { emptyRequest with params := [("id", "m1")], user := some alice } []) alice
    rfl).trans (by decide)

/-! ## Not-found errors of the item handlers -/

/-- C7: `menuController.js` does not bind `ErrorResponse`, so for an id
that names no stored item each of `getMenuItem`, `updateMenuItem` and
`deleteMenuItem` forwards a `ReferenceError` with no status code, not an
error with status 404 and the message `Menu item not found with id of <id>`.
No response is sent. -/
theorem notFound_forwards_referenceError :
    (menuController.getMenuItem
        (freshCtx { emptyRequest with params := [("id", "64b7f0c2a1d3e4f5a6b7c8d9")] } elevenMains)).outcome =
      .nextErr (.referenceError "ErrorResponse is not defined") ∧
    (menuController.updateMenuItem memoryDriver
        (freshCtx { emptyRequest with params := [("id", "64b7f0c2a1d3e4f5a6b7c8d9")] } elevenMains)).outcome =
      .nextErr (.referenceError "ErrorResponse is not defined") ∧
    (menuController.deleteMenuItem
        (freshCtx { emptyRequest with params := [("id", "64b7f0c2a1d3e4f5a6b7c8d9")] } elevenMains)).outcome =
      .nextErr (.referenceError "ErrorResponse is not defined") ∧
    findById elevenMains (some "64b7f0c2a1d3e4f5a6b7c8d9") = none ∧
    (JsError.referenceError "ErrorResponse is not defined").statusCode = none := by
  decide

/-- Whatever the store holds, an id that names no stored item makes each
item handler forward the `ReferenceError`. -/
theorem notFound_outcome (d : Driver) (ctx : Ctx)
    (h : findById ctx.docs (ctx.req.param "id") = none) :
    (menuController.getMenuItem ctx).outcome =
      .nextErr (.referenceError "ErrorResponse is not defined") ∧
    (menuController.updateMenuItem d ctx).outcome =
      .nextErr (.referenceError "ErrorResponse is not defined") ∧
    (menuController.deleteMenuItem ctx).outcome =
      .nextErr (.referenceError "ErrorResponse is not defined") := by
  simp only [menuController.getMenuItem, menuController.updateMenuItem,
    menuController.deleteMenuItem, asyncHandler, menuController.getMenuItemBody,
    menuController.updateMenuItemBody, menuController.deleteMenuItemBody, h]
  have hs : ∀ (m : String) (c : Nat), nextErrorResponse menuController.scope m c =
      .threw (.referenceError "ErrorResponse is not defined") := fun _ _ => by
    simp [nextErrorResponse, menuController.scope]
  simp only [hs, and_self]

/-! ## Optional authentication -/

/-- C8: `optionalAuth` reads the cookie only. For a request that carries
the valid token `good` in the header `Authorization: Bearer good` and no
cookie, `protect` attaches the user and `optionalAuth` attaches none. -/
theorem optionalAuth_ignores_header :
    (authMiddleware.protect sampleIdentity
        (freshCtx { emptyRequest with authorization := some "Bearer good" } [])).ctx.req.user =
      some alice ∧
    (authMiddleware.protect sampleIdentity
        (freshCtx { emptyRequest with authorization := some "Bearer good" } [])).outcome =
      .next ∧
    authMiddleware.optionalAuth sampleIdentity
        (freshCtx { emptyRequest with authorization := some "Bearer good" } []) =
      ⟨freshCtx { emptyRequest with authorization := some "Bearer good" } [], .next⟩ := by
  decide

/-- For every request `optionalAuth` ends with `next()`. -/
theorem optionalAuth_outcome (idp : Identity) (ctx : Ctx) :
    (authMiddleware.optionalAuth idp ctx).outcome = .next := by
  unfold authMiddleware.optionalAuth
  split
  · rfl
  · split
    · rfl
    · split
      · rfl
      · split <;> rfl

/-- Without a `jwt` cookie `optionalAuth` does nothing, whatever the
`Authorization` header holds. -/
theorem optionalAuth_without_cookie (idp : Identity) (ctx : Ctx)
    (h : ctx.req.jwtCookie = none) : authMiddleware.optionalAuth idp ctx = ⟨ctx, .next⟩ := by
  simp [authMiddleware.optionalAuth, authMiddleware.truthyCookie, h]

/-! ## Role guards -/

/-- The two guards of `adminMiddleware.js` fail with status 403 when no
user is attached or the role is not in the allow-list, and proceed otherwise. -/
theorem adminGuards_decision (roles : List String) (ctx : Ctx) :
    adminMiddleware.restrictTo roles ctx =
      ⟨ctx, match ctx.req.user with
        | none => .nextErr (.errorResponse (adminMiddleware.rolesMessage roles) 403)
        | some user =>
          if user.role ∈ roles then .next
          else .nextErr (.errorResponse (adminMiddleware.rolesMessage roles) 403)⟩ ∧
    adminMiddleware.adminMiddleware ctx =
      ⟨ctx, match ctx.req.user with
        | none => .nextErr (.errorResponse
            "Administrator privileges required to access this route" 403)
        | some user =>
          if user.role = "admin" then .next
          else .nextErr (.errorResponse
            "Administrator privileges required to access this route" 403)⟩ := by
  unfold adminMiddleware.restrictTo adminMiddleware.adminMiddleware
  cases hu : ctx.req.user with
  | none => simp [nextErrorResponse, adminMiddleware.scope]
  | some user =>
    constructor
    · by_cases h1 : user.role ∈ roles <;>
        simp [h1, nextErrorResponse, adminMiddleware.scope]
    · by_cases h2 : user.role = "admin" <;>
        simp [h2, nextErrorResponse, adminMiddleware.scope]

/-- C9: `restrictTo` of `authMiddleware.js` reads `req.user.role` without
testing `req.user`: with no user attached it raises a `TypeError`, whatever
the allow-list, where `restrictTo` of `adminMiddleware.js` fails with status
403. -/
theorem authRestrictTo_throws_without_user :
    (∀ roles : List String,
      authMiddleware.restrictTo roles (freshCtx emptyRequest []) =
        ⟨freshCtx emptyRequest [],
          .threw (.typeError "Cannot read properties of undefined (reading 'role')")⟩) ∧
    (adminMiddleware.restrictTo ["admin"] (freshCtx emptyRequest [])).outcome =
      .nextErr (.errorResponse
        "You need one of these roles: admin to access this route" 403) := by
  refine ⟨fun roles => rfl, by decide⟩

end Restaurant
